import Mathlib

/-!
Verification of the connecting-flights search core of the flights-airports-app
repository, as implemented in `src/crud.py` (`get_connecting_flights`) and the
page-count formula of its callers in `src/main.py`.

The embedding models the read-only dataset store as plain lists (a query
`db.query(T).filter(p).all()` is `List.filter` preserving storage order, and
`.first()` is `List.head?` of the filtered list), Python's case-insensitive
`ilike "%pat%"` as case-insensitive substring matching, Python's truthiness
based `x or y` fallback on nullable string columns, Python list slicing
(including negative indices) on the in-memory result list, and the possible
`AttributeError` on a failed airport lookup as an `Option`-valued result
(`none` = the function raises).
-/

/-- Data model of `models.py::Airport` restricted to the fields the
connecting-flights search reads.  `iata`/`icao` are nullable columns,
loaded as `None` when the source field is `\N` (`data_loader.py`). -/
structure Airport where
  id : Nat
  name : String
  city : String
  country : String
  iata : Option String
  icao : Option String
deriving DecidableEq

/-- Data model of `models.py::Route`.  `airline_code` and `airline_id` are
nullable columns; `source_id`/`dest_id` are the airport foreign keys and
`stops` the technical stop count (`0` = direct). -/
structure Route where
  airline_code : Option String
  airline_id : Option Nat
  source_code : String
  source_id : Nat
  dest_code : String
  dest_id : Nat
  codeshare : String
  stops : Nat
  equipment : String
deriving DecidableEq

/-- A dataset snapshot: the airports and routes tables, each an ordered list
(storage order).  The query path never mutates it. -/
structure DB where
  airports : List Airport
  routes : List Route
deriving DecidableEq

/-- The ad-hoc itinerary object built by `get_connecting_flights`
(`type('obj', (), {...})` in `crud.py`); `to1` models the source's `'to'`
field, which is a keyword here. -/
structure Itin where
  airline1 : String
  from1 : String
  from_city : String
  via : String
  via_city : String
  airline2 : String
  to1 : String
  to_city : String
deriving DecidableEq

/-- Does the second character list start with the first? -/
def leadMatch : List Char → List Char → Bool
  | [], _ => true
  | _ :: _, [] => false
  | a :: as, b :: bs => a == b && leadMatch as bs

/-- Does the first character list occur contiguously inside the second? -/
def subMatch : List Char → List Char → Bool
  | pat, [] => leadMatch pat []
  | pat, c :: rest => leadMatch pat (c :: rest) || subMatch pat rest

/-- SQL `field ILIKE '%pat%'`: case-insensitive substring match, as used by
every city/country filter in `crud.py`. -/
def ilike (field pat : String) : Bool :=
  subMatch (pat.data.map Char.toLower) (field.data.map Char.toLower)

/-- `db.query(Airport).filter(Airport.city.ilike(f"%{city}%"),
Airport.country.ilike(f"%{country}%")).all()` — the airport resolution used
for both endpoints of the search (`crud.py` lines 295-306). -/
def findAirports (db : DB) (city country : String) : List Airport :=
  db.airports.filter (fun a => ilike a.city city && ilike a.country country)

/-- `db.query(Airport).filter(Airport.id == i).first()` — the per-itinerary
airport lookup (`crud.py` lines 338-346). -/
def lookupAirport (db : DB) (i : Nat) : Option Airport :=
  (db.airports.filter (fun a => a.id == i)).head?

/-- `db.query(Route).filter(Route.source_id.in_(dep_ids), Route.stops == 0)
.all()` — the first-leg fetch (`crud.py` lines 312-315). -/
def firstLegs (db : DB) (dep_ids : List Nat) : List Route :=
  db.routes.filter (fun r => dep_ids.contains r.source_id && r.stops == 0)

/-- `db.query(Route).filter(Route.source_id.in_(via_ids),
Route.dest_id.in_(arr_ids), Route.stops == 0).all()` — the second-leg fetch
(`crud.py` lines 324-328). -/
def secondLegs (db : DB) (via_ids arr_ids : List Nat) : List Route :=
  db.routes.filter (fun r =>
    via_ids.contains r.source_id && arr_ids.contains r.dest_id && r.stops == 0)

/-- Python `x or d` on a nullable string `x`: the fallback `d` is taken when
`x` is `None` or the empty string (both falsy in Python). -/
def pyOr (x : Option String) (d : String) : String :=
  match x with
  | none => d
  | some s => if s = "" then d else s

/-- Construction of one itinerary object for a joined pair of legs
(`crud.py` lines 338-358).  The three airport lookups go through
`lookupAirport`; if any of them returns no row, the attribute access in the
source raises `AttributeError`, modelled by `none`. -/
def mkItinerary (db : DB) (first second : Route) : Option Itin :=
  match lookupAirport db first.source_id, lookupAirport db first.dest_id,
        lookupAirport db second.dest_id with
  | some from_airport, some via_airport, some to_airport =>
      some {
        airline1 := pyOr first.airline_code "Unknown",
        from1 := pyOr from_airport.iata (pyOr from_airport.icao "N/A"),
        from_city := from_airport.city,
        via := pyOr via_airport.iata (pyOr via_airport.icao "N/A"),
        via_city := via_airport.city,
        airline2 := pyOr second.airline_code "Unknown",
        to1 := pyOr to_airport.iata (pyOr to_airport.icao "N/A"),
        to_city := to_airport.city }
  | _, _, _ => none

/-- Inner loop of the join (`for second in second_legs` with the
`first.dest_id == second.source_id` guard): the itineraries one first leg
contributes, in second-leg order; `none` when a lookup fails. -/
def buildInner (db : DB) (first : Route) : List Route → Option (List Itin)
  | [] => some []
  | second :: rest =>
      if first.dest_id = second.source_id then
        (mkItinerary db first second).bind (fun it =>
          (buildInner db first rest).map (fun l => it :: l))
      else buildInner db first rest

/-- Outer loop of the join (`for first in first_legs`): concatenation of the
per-first-leg blocks, in first-leg order (`crud.py` lines 331-358). -/
def buildResults (db : DB) (seconds : List Route) : List Route → Option (List Itin)
  | [] => some []
  | first :: rest =>
      (buildInner db first seconds).bind (fun block =>
        (buildResults db seconds rest).map (fun l => block ++ l))

/-- Python list slice `l[start:stop]`: negative bounds count from the end,
then both bounds are clamped to `[0, len(l)]` (`results[offset:offset +
per_page]`, `crud.py` line 362). -/
def pySlice {α : Type} (l : List α) (start stop : Int) : List α :=
  let n : Int := l.length
  let lo : Int := if start < 0 then max (n + start) 0 else min start n
  let hi : Int := if stop < 0 then max (n + stop) 0 else min stop n
  (l.take hi.toNat).drop lo.toNat

/-- The fully materialized in-memory result list of the search, before
pagination; `some []` on the short-circuit paths, `none` when an airport
lookup inside the join raises. -/
def connectingResults (db : DB) (city1 country1 city2 country2 : String) :
    Option (List Itin) :=
  let dep_ids := (findAirports db city1 country1).map (fun a => a.id)
  let arr_ids := (findAirports db city2 country2).map (fun a => a.id)
  if dep_ids.isEmpty || arr_ids.isEmpty then some []
  else
    let fl := firstLegs db dep_ids
    if fl.isEmpty then some []
    else
      let via_ids := (fl.map (fun r => r.dest_id)).dedup
      buildResults db (secondLegs db via_ids arr_ids) fl

/-- `crud.py::get_connecting_flights`.  Mirrors the source line by line:
resolve both airport sets, short-circuit to `([], 0)` when either set or the
first-leg set is empty, join first legs with second legs by
`first.dest_id == second.source_id`, then paginate the in-memory list with
`results[offset:offset + per_page]` where `offset = (page - 1) * per_page`.
The source defaults are `page = 1`, `per_page = 25`.  `none` models the
`AttributeError` raised when an airport lookup returns no row. -/
def get_connecting_flights (db : DB) (city1 country1 city2 country2 : String)
    (page per_page : Int) : Option (List Itin × Nat) :=
  let offset := (page - 1) * per_page
  let dep_ids := (findAirports db city1 country1).map (fun a => a.id)
  let arr_ids := (findAirports db city2 country2).map (fun a => a.id)
  if dep_ids.isEmpty || arr_ids.isEmpty then some ([], 0)
  else
    let fl := firstLegs db dep_ids
    if fl.isEmpty then some ([], 0)
    else
      let via_ids := (fl.map (fun r => r.dest_id)).dedup
      let sl := secondLegs db via_ids arr_ids
      match buildResults db sl fl with
      | none => none
      | some results => some (pySlice results offset (offset + per_page), results.length)

/-- The number of ordered (first leg, second leg) pairs satisfying the join
predicate `first.dest_id == second.source_id`, over the leg lists the search
fetches for the given city pair. -/
def joinPairCount (db : DB) (city1 country1 city2 country2 : String) : Nat :=
  let dep_ids := (findAirports db city1 country1).map (fun a => a.id)
  let arr_ids := (findAirports db city2 country2).map (fun a => a.id)
  let fl := firstLegs db dep_ids
  let via_ids := (fl.map (fun r => r.dest_id)).dedup
  let sl := secondLegs db via_ids arr_ids
  (fl.map (fun f => sl.countP (fun s => f.dest_id == s.source_id))).sum

/-- `pages = (total + 24) // 25` — the page-count formula used by every
handler in `main.py` (e.g. line 452 in `connecting_flights`), with the page
size 25 hard-coded independently of the query's `per_page`. -/
def pageCount (total : Nat) : Nat := (total + 24) / 25

/-- Display code of an airport as the spec words it: the IATA code when
present, otherwise the ICAO code when present, otherwise `"N/A"`. -/
def displayCode (a : Airport) : String := (a.iata).getD ((a.icao).getD "N/A")

/-- Display code of a leg's airline as the spec words it: the leg's airline
code, `"Unknown"` when it is null. -/
def displayAirline (r : Route) : String := (r.airline_code).getD "Unknown"

/-- Referential integrity of a snapshot: every route's source and destination
foreign keys resolve to an airport row (guaranteed by `data_loader.py`, which
drops routes whose endpoints do not resolve). -/
def RefIntact (db : DB) : Prop :=
  ∀ r ∈ db.routes, (∃ a ∈ db.airports, a.id = r.source_id) ∧
    (∃ a ∈ db.airports, a.id = r.dest_id)

/-- Well-formed display codes, as required by the spec's data model: an
IATA/ICAO airport code is 3/4 letters and an airline code 2 letters when
present, hence never the empty string. -/
def CodesWellFormed (db : DB) : Prop :=
  (∀ a ∈ db.airports, a.iata ≠ some "" ∧ a.icao ≠ some "") ∧
    (∀ r ∈ db.routes, r.airline_code ≠ some "")

/-- Concrete snapshot used to instantiate the theorems: Berlin has airport 1,
Paris airport 2, Singapore airport 3; route 1→2 and route 2→3 are direct. -/
def wDB : DB :=
  { airports := [
      { id := 1, name := "Berlin Brandenburg", city := "Berlin",
        country := "Germany", iata := some "BER", icao := some "EDDB" },
      { id := 2, name := "Charles de Gaulle", city := "Paris",
        country := "France", iata := none, icao := some "LFPG" },
      { id := 3, name := "Changi", city := "Singapore",
        country := "Singapore", iata := some "SIN", icao := some "WSSS" }],
    routes := [
      { airline_code := some "AB", airline_id := some 7, source_code := "BER",
        source_id := 1, dest_code := "CDG", dest_id := 2, codeshare := "",
        stops := 0, equipment := "320" },
      { airline_code := none, airline_id := none, source_code := "CDG",
        source_id := 2, dest_code := "SIN", dest_id := 3, codeshare := "",
        stops := 0, equipment := "388" }] }

/-- The single itinerary the concrete snapshot produces for
Berlin → Singapore. -/
def wItin : Itin :=
  { airline1 := "AB", from1 := "BER", from_city := "Berlin",
    via := "LFPG", via_city := "Paris", airline2 := "Unknown",
    to1 := "SIN", to_city := "Singapore" }

/-! ### Basic lemmas about the embedded operations -/

theorem pyOr_eq_getD (x : Option String) (d : String) (h : x ≠ some "") :
    pyOr x d = x.getD d := by
  cases x with
  | none => rfl
  | some s =>
      simp only [pyOr, Option.getD_some]
      rw [if_neg]
      intro hs
      exact h (by rw [hs])

theorem display_eq {a : Airport} (h1 : a.iata ≠ some "") (h2 : a.icao ≠ some "") :
    pyOr a.iata (pyOr a.icao "N/A") = displayCode a := by
  rw [pyOr_eq_getD _ _ h2, pyOr_eq_getD _ _ h1, displayCode]

theorem lookupAirport_mem {db : DB} {i : Nat} {a : Airport}
    (h : lookupAirport db i = some a) : a ∈ db.airports ∧ a.id = i := by
  have hm : a ∈ db.airports.filter (fun x => x.id == i) :=
    List.mem_of_mem_head? (by simp only [lookupAirport] at h; simp [h])
  rcases List.mem_filter.mp hm with ⟨h1, h2⟩
  exact ⟨h1, by simpa using h2⟩

theorem lookupAirport_of_exists {db : DB} {i : Nat}
    (h : ∃ a ∈ db.airports, a.id = i) :
    ∃ a, lookupAirport db i = some a := by
  rcases h with ⟨a, ha, hai⟩
  have hm : a ∈ db.airports.filter (fun x => x.id == i) :=
    List.mem_filter.mpr ⟨ha, by simp [hai]⟩
  cases hfil : db.airports.filter (fun x => x.id == i) with
  | nil => rw [hfil] at hm; cases hm
  | cons b t => exact ⟨b, by simp [lookupAirport, hfil]⟩

theorem mkItinerary_isSome {db : DB} {f s : Route}
    (h1 : ∃ a ∈ db.airports, a.id = f.source_id)
    (h2 : ∃ a ∈ db.airports, a.id = f.dest_id)
    (h3 : ∃ a ∈ db.airports, a.id = s.dest_id) :
    ∃ it, mkItinerary db f s = some it := by
  rcases lookupAirport_of_exists h1 with ⟨a1, e1⟩
  rcases lookupAirport_of_exists h2 with ⟨a2, e2⟩
  rcases lookupAirport_of_exists h3 with ⟨a3, e3⟩
  simp only [mkItinerary, e1, e2, e3]
  exact ⟨_, rfl⟩

theorem mem_firstLegs {db : DB} {ids : List Nat} {r : Route} :
    r ∈ firstLegs db ids ↔ r ∈ db.routes ∧ r.source_id ∈ ids ∧ r.stops = 0 := by
  simp [firstLegs, List.mem_filter]

theorem mem_secondLegs {db : DB} {via_ids arr_ids : List Nat} {r : Route} :
    r ∈ secondLegs db via_ids arr_ids ↔
      r ∈ db.routes ∧ r.source_id ∈ via_ids ∧ r.dest_id ∈ arr_ids ∧ r.stops = 0 := by
  simp [secondLegs, List.mem_filter, and_assoc]

theorem firstLegs_nil (db : DB) : firstLegs db [] = [] := by
  simp [firstLegs]

theorem secondLegs_arr_nil (db : DB) (via_ids : List Nat) :
    secondLegs db via_ids [] = [] := by
  simp [secondLegs]

/-! ### Lemmas about the join loops -/

theorem buildInner_mem {db : DB} {f : Route} {seconds : List Route} {l : List Itin}
    (h : buildInner db f seconds = some l) {it : Itin} (hit : it ∈ l) :
    ∃ s ∈ seconds, f.dest_id = s.source_id ∧ mkItinerary db f s = some it := by
  induction seconds generalizing l with
  | nil =>
      simp only [buildInner, Option.some.injEq] at h
      subst h
      cases hit
  | cons s rest ih =>
      by_cases hc : f.dest_id = s.source_id
      · simp only [buildInner, if_pos hc] at h
        cases hmk : mkItinerary db f s with
        | none => rw [hmk] at h; simp at h
        | some it0 =>
            rw [hmk] at h
            cases hrest : buildInner db f rest with
            | none => rw [hrest] at h; simp at h
            | some l0 =>
                rw [hrest] at h
                simp at h
                subst h
                rcases List.mem_cons.mp hit with h1 | h1
                · exact ⟨s, List.mem_cons_self .., hc, by rw [hmk, h1]⟩
                · rcases ih hrest h1 with ⟨s', hs', hc', hmk'⟩
                  exact ⟨s', List.mem_cons_of_mem _ hs', hc', hmk'⟩
      · simp only [buildInner, if_neg hc] at h
        rcases ih h hit with ⟨s', hs', hc', hmk'⟩
        exact ⟨s', List.mem_cons_of_mem _ hs', hc', hmk'⟩

theorem buildInner_length {db : DB} {f : Route} {seconds : List Route} {l : List Itin}
    (h : buildInner db f seconds = some l) :
    l.length = seconds.countP (fun s => f.dest_id == s.source_id) := by
  induction seconds generalizing l with
  | nil =>
      simp only [buildInner, Option.some.injEq] at h
      subst h
      simp
  | cons s rest ih =>
      by_cases hc : f.dest_id = s.source_id
      · simp only [buildInner, if_pos hc] at h
        cases hmk : mkItinerary db f s with
        | none => rw [hmk] at h; simp at h
        | some it0 =>
            rw [hmk] at h
            cases hrest : buildInner db f rest with
            | none => rw [hrest] at h; simp at h
            | some l0 =>
                rw [hrest] at h
                simp at h
                subst h
                rw [List.countP_cons_of_pos _ _ (by simp [hc])]
                simp [ih hrest]
      · simp only [buildInner, if_neg hc] at h
        rw [List.countP_cons_of_neg _ _ (by simp [hc])]
        exact ih h

theorem buildInner_eq {db : DB} {f : Route} {seconds : List Route} {l : List Itin}
    (h : buildInner db f seconds = some l) :
    l = (seconds.filter (fun s => f.dest_id == s.source_id)).filterMap
          (fun s => mkItinerary db f s) := by
  induction seconds generalizing l with
  | nil =>
      simp only [buildInner, Option.some.injEq] at h
      subst h
      simp
  | cons s rest ih =>
      by_cases hc : f.dest_id = s.source_id
      · simp only [buildInner, if_pos hc] at h
        cases hmk : mkItinerary db f s with
        | none => rw [hmk] at h; simp at h
        | some it0 =>
            rw [hmk] at h
            cases hrest : buildInner db f rest with
            | none => rw [hrest] at h; simp at h
            | some l0 =>
                rw [hrest] at h
                simp at h
                subst h
                rw [List.filter_cons_of_pos (by simp [hc])]
                simp [List.filterMap_cons, hmk, ih hrest]
      · simp only [buildInner, if_neg hc] at h
        rw [List.filter_cons_of_neg (by simp [hc])]
        exact ih h

theorem buildInner_isSome {db : DB} {f : Route} {seconds : List Route}
    (h : ∀ s ∈ seconds, ∃ it, mkItinerary db f s = some it) :
    ∃ l, buildInner db f seconds = some l := by
  induction seconds with
  | nil => exact ⟨[], rfl⟩
  | cons s rest ih =>
      rcases ih (fun x hx => h x (List.mem_cons_of_mem _ hx)) with ⟨l0, hl0⟩
      by_cases hc : f.dest_id = s.source_id
      · rcases h s (List.mem_cons_self ..) with ⟨it, hit⟩
        exact ⟨it :: l0, by simp [buildInner, if_pos hc, hit, hl0]⟩
      · exact ⟨l0, by simp [buildInner, if_neg hc, hl0]⟩

theorem buildResults_mem {db : DB} {seconds firsts : List Route} {res : List Itin}
    (h : buildResults db seconds firsts = some res) {it : Itin} (hit : it ∈ res) :
    ∃ f ∈ firsts, ∃ s ∈ seconds,
      f.dest_id = s.source_id ∧ mkItinerary db f s = some it := by
  induction firsts generalizing res with
  | nil =>
      simp only [buildResults, Option.some.injEq] at h
      subst h
      cases hit
  | cons f rest ih =>
      simp only [buildResults] at h
      cases hbi : buildInner db f seconds with
      | none => rw [hbi] at h; simp at h
      | some block =>
          rw [hbi] at h
          cases hbr : buildResults db seconds rest with
          | none => rw [hbr] at h; simp at h
          | some res0 =>
              rw [hbr] at h
              simp at h
              subst h
              rcases List.mem_append.mp hit with h1 | h1
              · rcases buildInner_mem hbi h1 with ⟨s, hs, hc, hmk⟩
                exact ⟨f, List.mem_cons_self .., s, hs, hc, hmk⟩
              · rcases ih hbr h1 with ⟨f', hf', s, hs, hc, hmk⟩
                exact ⟨f', List.mem_cons_of_mem _ hf', s, hs, hc, hmk⟩

theorem buildResults_length {db : DB} {seconds firsts : List Route} {res : List Itin}
    (h : buildResults db seconds firsts = some res) :
    res.length =
      (firsts.map (fun f => seconds.countP (fun s => f.dest_id == s.source_id))).sum := by
  induction firsts generalizing res with
  | nil =>
      simp only [buildResults, Option.some.injEq] at h
      subst h
      simp
  | cons f rest ih =>
      simp only [buildResults] at h
      cases hbi : buildInner db f seconds with
      | none => rw [hbi] at h; simp at h
      | some block =>
          rw [hbi] at h
          cases hbr : buildResults db seconds rest with
          | none => rw [hbr] at h; simp at h
          | some res0 =>
              rw [hbr] at h
              simp at h
              subst h
              simp [buildInner_length hbi, ih hbr]

theorem buildResults_eq {db : DB} {seconds firsts : List Route} {res : List Itin}
    (h : buildResults db seconds firsts = some res) :
    res = firsts.flatMap (fun f =>
      (seconds.filter (fun s => f.dest_id == s.source_id)).filterMap
        (fun s => mkItinerary db f s)) := by
  induction firsts generalizing res with
  | nil =>
      simp only [buildResults, Option.some.injEq] at h
      subst h
      simp
  | cons f rest ih =>
      simp only [buildResults] at h
      cases hbi : buildInner db f seconds with
      | none => rw [hbi] at h; simp at h
      | some block =>
          rw [hbi] at h
          cases hbr : buildResults db seconds rest with
          | none => rw [hbr] at h; simp at h
          | some res0 =>
              rw [hbr] at h
              simp at h
              subst h
              rw [List.flatMap_cons, buildInner_eq hbi, ih hbr]

theorem buildResults_isSome {db : DB} {seconds firsts : List Route}
    (h : ∀ f ∈ firsts, ∀ s ∈ seconds, ∃ it, mkItinerary db f s = some it) :
    ∃ res, buildResults db seconds firsts = some res := by
  induction firsts with
  | nil => exact ⟨[], rfl⟩
  | cons f rest ih =>
      rcases ih (fun x hx => h x (List.mem_cons_of_mem _ hx)) with ⟨res0, hres0⟩
      rcases buildInner_isSome (fun s hs => h f (List.mem_cons_self ..) s hs) with
        ⟨block, hblock⟩
      exact ⟨block ++ res0, by simp [buildResults, hblock, hres0]⟩

/-! ### Lemmas about Python slicing -/

theorem pySlice_nil {α : Type} (s e : Int) : pySlice ([] : List α) s e = [] := by
  simp [pySlice]

theorem pySlice_subset {α : Type} {l : List α} {s e : Int} {a : α}
    (h : a ∈ pySlice l s e) : a ∈ l :=
  List.mem_of_mem_take (List.mem_of_mem_drop h)

theorem int_take_min {α : Type} (l : List α) (e : Int) (he : 0 ≤ e) :
    l.take (min e (l.length : Int)).toNat = l.take e.toNat := by
  rcases le_or_lt e (l.length : Int) with h | h
  · rw [min_eq_left h]
  · rw [min_eq_right h.le]
    have h1 : ((l.length : Int)).toNat = l.length := by omega
    have h2 : l.length ≤ e.toNat := by omega
    rw [h1, List.take_length, List.take_of_length_le h2]

theorem pySlice_nonneg {α : Type} (l : List α) (s e : Int) (hs : 0 ≤ s) (he : 0 ≤ e) :
    pySlice l s e = (l.drop s.toNat).take (e.toNat - s.toNat) := by
  simp only [pySlice]
  rw [if_neg (by omega), if_neg (by omega)]
  rw [int_take_min l e he, List.drop_take]
  rcases le_or_lt s (l.length : Int) with h | h
  · have h1 : (min s (l.length : Int)).toNat = s.toNat := by
      rw [min_eq_left h]
    rw [h1]
  · have h1 : (min s (l.length : Int)).toNat = l.length := by
      rw [min_eq_right h.le]; omega
    have h2 : l.length ≤ s.toNat := by omega
    rw [h1, List.drop_length, List.drop_eq_nil_of_le h2]
    simp

theorem pySlice_length_le {α : Type} (l : List α) (s e : Int) (hs : 0 ≤ s) (he : 0 ≤ e) :
    (pySlice l s e).length ≤ e.toNat - s.toNat := by
  rw [pySlice_nonneg l s e hs he]
  exact List.length_take_le _ _

theorem pySlice_stop_zero {α : Type} (l : List α) (s : Int) : pySlice l s 0 = [] := by
  simp only [pySlice]
  have h0 : ¬ ((0 : Int) < 0) := by omega
  rw [if_neg h0]
  have h1 : (min (0 : Int) (l.length : Int)).toNat = 0 := by
    rw [min_eq_left (by omega : (0 : Int) ≤ (l.length : Int))]
    rfl
  rw [h1]
  simp

theorem chunks_concat {α : Type} (l : List α) (pp : Nat) (k : Nat) :
    (List.range k).flatMap (fun i => (l.drop (i * pp)).take pp) = l.take (k * pp) := by
  induction k with
  | zero => simp
  | succ k ih =>
      rw [List.range_succ, List.flatMap_append, ih]
      have h1 : (k + 1) * pp = k * pp + pp := by ring
      rw [h1, List.take_add]
      simp

theorem ceil_mul_ge (n pp : Nat) (hpp : 1 ≤ pp) : n ≤ ((n + pp - 1) / pp) * pp := by
  obtain ⟨m, rfl⟩ : ∃ m, pp = m + 1 := ⟨pp - 1, by omega⟩
  have he : n + (m + 1) - 1 = n + m := by omega
  rw [he]
  have h1 := Nat.div_add_mod (n + m) (m + 1)
  have h2 : (n + m) % (m + 1) < m + 1 := Nat.mod_lt _ (by omega)
  have h3 : (m + 1) * ((n + m) / (m + 1)) = ((n + m) / (m + 1)) * (m + 1) :=
    Nat.mul_comm _ _
  linarith

/-! ### Structure of the search: pager over the materialized list -/

theorem get_eq_pager (db : DB) (c1 co1 c2 co2 : String) (p pp : Int) :
    get_connecting_flights db c1 co1 c2 co2 p pp =
      (connectingResults db c1 co1 c2 co2).map
        (fun res => (pySlice res ((p - 1) * pp) ((p - 1) * pp + pp), res.length)) := by
  simp only [get_connecting_flights, connectingResults]
  by_cases h1 : (((findAirports db c1 co1).map (fun a => a.id)).isEmpty
      || ((findAirports db c2 co2).map (fun a => a.id)).isEmpty) = true
  · simp [h1, pySlice_nil]
  · simp only [h1, if_false, Bool.false_eq_true]
    by_cases h2 : (firstLegs db ((findAirports db c1 co1).map (fun a => a.id))).isEmpty = true
    · simp [h2, pySlice_nil]
    · simp only [h2, if_false, Bool.false_eq_true]
      cases hbr : buildResults db
          (secondLegs db
            (((firstLegs db ((findAirports db c1 co1).map (fun a => a.id))).map
                (fun r => r.dest_id)).dedup)
            ((findAirports db c2 co2).map (fun a => a.id)))
          (firstLegs db ((findAirports db c1 co1).map (fun a => a.id))) with
      | none => simp
      | some res => simp

theorem connectingResults_length {db : DB} {c1 co1 c2 co2 : String} {res : List Itin}
    (h : connectingResults db c1 co1 c2 co2 = some res) :
    res.length = joinPairCount db c1 co1 c2 co2 := by
  simp only [connectingResults] at h
  by_cases h1 : (((findAirports db c1 co1).map (fun a => a.id)).isEmpty
      || ((findAirports db c2 co2).map (fun a => a.id)).isEmpty) = true
  · rw [if_pos h1] at h
    simp only [Option.some.injEq] at h
    subst h
    rcases Bool.or_eq_true_iff.mp h1 with hdep | harr
    · have hd : (findAirports db c1 co1).map (fun a => a.id) = [] :=
        List.isEmpty_iff.mp hdep
      simp [joinPairCount, hd, firstLegs_nil]
    · have ha : (findAirports db c2 co2).map (fun a => a.id) = [] :=
        List.isEmpty_iff.mp harr
      simp [joinPairCount, ha, secondLegs_arr_nil]
  · rw [if_neg h1] at h
    by_cases h2 : (firstLegs db ((findAirports db c1 co1).map (fun a => a.id))).isEmpty = true
    · rw [if_pos h2] at h
      simp only [Option.some.injEq] at h
      subst h
      have hf : firstLegs db ((findAirports db c1 co1).map (fun a => a.id)) = [] :=
        List.isEmpty_iff.mp h2
      simp [joinPairCount, hf]
    · rw [if_neg h2] at h
      simp only [joinPairCount]
      exact buildResults_length h

theorem connectingResults_mem {db : DB} {c1 co1 c2 co2 : String} {res : List Itin}
    (h : connectingResults db c1 co1 c2 co2 = some res) {it : Itin} (hit : it ∈ res) :
    ∃ f ∈ firstLegs db ((findAirports db c1 co1).map (fun a => a.id)),
    ∃ s ∈ secondLegs db
        (((firstLegs db ((findAirports db c1 co1).map (fun a => a.id))).map
            (fun r => r.dest_id)).dedup)
        ((findAirports db c2 co2).map (fun a => a.id)),
      f.dest_id = s.source_id ∧ mkItinerary db f s = some it := by
  simp only [connectingResults] at h
  by_cases h1 : (((findAirports db c1 co1).map (fun a => a.id)).isEmpty
      || ((findAirports db c2 co2).map (fun a => a.id)).isEmpty) = true
  · rw [if_pos h1] at h
    simp only [Option.some.injEq] at h
    subst h
    cases hit
  · rw [if_neg h1] at h
    by_cases h2 : (firstLegs db ((findAirports db c1 co1).map (fun a => a.id))).isEmpty = true
    · rw [if_pos h2] at h
      simp only [Option.some.injEq] at h
      subst h
      cases hit
    · rw [if_neg h2] at h
      exact buildResults_mem h hit

theorem connectingResults_isSome (db : DB) (hri : RefIntact db)
    (c1 co1 c2 co2 : String) :
    ∃ res, connectingResults db c1 co1 c2 co2 = some res := by
  simp only [connectingResults]
  by_cases h1 : (((findAirports db c1 co1).map (fun a => a.id)).isEmpty
      || ((findAirports db c2 co2).map (fun a => a.id)).isEmpty) = true
  · exact ⟨[], by rw [if_pos h1]⟩
  · rw [if_neg h1]
    by_cases h2 : (firstLegs db ((findAirports db c1 co1).map (fun a => a.id))).isEmpty = true
    · exact ⟨[], by rw [if_pos h2]⟩
    · rw [if_neg h2]
      apply buildResults_isSome
      intro f hf s hs
      have hfr : f ∈ db.routes := (mem_firstLegs.mp hf).1
      have hsr : s ∈ db.routes := (mem_secondLegs.mp hs).1
      exact mkItinerary_isSome (hri f hfr).1 (hri f hfr).2 (hri s hsr).2

/-! ### The claims -/

/-- Claim C1: for every dataset snapshot and every city pair whose origin and
destination airport sets are non-empty, every itinerary emitted by
`get_connecting_flights` comes from a pair of routes (first, second) with
`first.dest_id = second.source_id`, `first.source_id` in the origin airport
set, `second.dest_id` in the destination airport set, and both routes
direct (`stops = 0`). -/
theorem c1_itinerary_provenance
    (db : DB) (city1 country1 city2 country2 : String) (page per_page : Int)
    (items : List Itin) (total : Nat)
    (hdep : findAirports db city1 country1 ≠ [])
    (harr : findAirports db city2 country2 ≠ [])
    (hret : get_connecting_flights db city1 country1 city2 country2 page per_page =
      some (items, total))
    (it : Itin) (hit : it ∈ items) :
    ∃ first ∈ db.routes, ∃ second ∈ db.routes,
      first.dest_id = second.source_id ∧
      first.source_id ∈ (findAirports db city1 country1).map (fun a => a.id) ∧
      second.dest_id ∈ (findAirports db city2 country2).map (fun a => a.id) ∧
      first.stops = 0 ∧ second.stops = 0 ∧
      mkItinerary db first second = some it := by
  rw [get_eq_pager] at hret
  cases hcr : connectingResults db city1 country1 city2 country2 with
  | none => rw [hcr] at hret; simp at hret
  | some res =>
      rw [hcr] at hret
      simp only [Option.map_some', Option.some.injEq, Prod.mk.injEq] at hret
      obtain ⟨hitems, htotal⟩ := hret
      rw [← hitems] at hit
      have hres : it ∈ res := pySlice_subset hit
      rcases connectingResults_mem hcr hres with ⟨f, hf, s, hs, hc, hmk⟩
      rcases mem_firstLegs.mp hf with ⟨hfr, hfsrc, hfst⟩
      rcases mem_secondLegs.mp hs with ⟨hsr, hvia, hsdest, hsst⟩
      exact ⟨f, hfr, s, hsr, hc, hfsrc, hsdest, hfst, hsst, hmk⟩

/-- Claim C2: the total count returned by `get_connecting_flights` equals the
number of ordered (first leg, second leg) pairs satisfying the join predicate
`first.dest_id = second.source_id`, one itinerary per pair with no merging;
`joinPairCount` does not mention `page`/`per_page`, so the total is
independent of the pagination arguments. -/
theorem c2_total_join_pair_count
    (db : DB) (city1 country1 city2 country2 : String) (page per_page : Int)
    (items : List Itin) (total : Nat)
    (hret : get_connecting_flights db city1 country1 city2 country2 page per_page =
      some (items, total)) :
    total = joinPairCount db city1 country1 city2 country2 := by
  rw [get_eq_pager] at hret
  cases hcr : connectingResults db city1 country1 city2 country2 with
  | none => rw [hcr] at hret; simp at hret
  | some res =>
      rw [hcr] at hret
      simp only [Option.map_some', Option.some.injEq, Prod.mk.injEq] at hret
      exact hret.2.symm.trans (connectingResults_length hcr)

/-- Claim C3: if the resolved origin airport set is empty, or the resolved
destination airport set is empty, or the set of direct first-leg routes out
of the origin set is empty, `get_connecting_flights` returns `([], 0)` —
and in particular returns (rather than raising) without running the join or
the airport lookups of the later phases. -/
theorem c3_empty_short_circuit
    (db : DB) (city1 country1 city2 country2 : String) (page per_page : Int)
    (h : findAirports db city1 country1 = [] ∨ findAirports db city2 country2 = [] ∨
      firstLegs db ((findAirports db city1 country1).map (fun a => a.id)) = []) :
    get_connecting_flights db city1 country1 city2 country2 page per_page =
      some ([], 0) := by
  simp only [get_connecting_flights]
  rcases h with h | h | h
  · rw [if_pos (by simp [h])]
  · rw [if_pos (by simp [h])]
  · by_cases h1 : (((findAirports db city1 country1).map (fun a => a.id)).isEmpty
        || ((findAirports db city2 country2).map (fun a => a.id)).isEmpty) = true
    · rw [if_pos h1]
    · rw [if_neg h1, if_pos (by simp [h])]

/-- Claim C4: the pager is exhaustive and non-overlapping: for `per_page ≥ 1`,
concatenating the slices `pySlice res ((p-1)*per_page) ((p-1)*per_page +
per_page)` for pages `p = 1 .. ceil(len/per_page)` (indexed here by
`i = p - 1` over `List.range`), in order, reproduces the full in-memory
result list exactly, each element appearing exactly once. -/
theorem c4_pagination_exhaustive (res : List Itin) (pp : Int) (hpp : 1 ≤ pp) :
    (List.range ((res.length + pp.toNat - 1) / pp.toNat)).flatMap
      (fun i => pySlice res ((i : Int) * pp) ((i : Int) * pp + pp)) = res := by
  obtain ⟨P, rfl⟩ : ∃ P : Nat, pp = (P : Int) := ⟨pp.toNat, by omega⟩
  have hP : 1 ≤ P := by omega
  have hiter : ∀ i : Nat,
      pySlice res ((i : Int) * (P : Int)) ((i : Int) * (P : Int) + (P : Int)) =
        (res.drop (i * P)).take P := by
    intro i
    have hs : (0 : Int) ≤ (i : Int) * (P : Int) := by positivity
    have he : (0 : Int) ≤ (i : Int) * (P : Int) + (P : Int) := by positivity
    rw [pySlice_nonneg res _ _ hs he]
    have hcast : (i : Int) * (P : Int) = ((i * P : Nat) : Int) := by push_cast; ring
    rw [hcast]
    have h1 : (((i * P : Nat) : Int)).toNat = i * P := by omega
    have h2 : (((i * P : Nat) : Int) + (P : Int)).toNat = i * P + P := by omega
    rw [h1, h2]
    congr 1
    omega
  simp only [hiter]
  have hppt : ((P : Int)).toNat = P := by omega
  rw [hppt, chunks_concat]
  exact List.take_of_length_le (ceil_mul_ge _ _ hP)

/-- Claim C5: for `page ≥ 1` and `per_page ≥ 1`, `get_connecting_flights`
returns the contiguous slice of the materialized result list at zero-based
offset `(page-1)*per_page` with length at most `per_page`, together with the
total count of the full list computed before slicing. -/
theorem c5_page_slice_and_total
    (db : DB) (city1 country1 city2 country2 : String) (page per_page : Int)
    (items : List Itin) (total : Nat)
    (hp : 1 ≤ page) (hpp : 1 ≤ per_page)
    (hret : get_connecting_flights db city1 country1 city2 country2 page per_page =
      some (items, total)) :
    ∃ res, connectingResults db city1 country1 city2 country2 = some res ∧
      items = pySlice res ((page - 1) * per_page) ((page - 1) * per_page + per_page) ∧
      total = res.length ∧ (items.length : Int) ≤ per_page := by
  rw [get_eq_pager] at hret
  cases hcr : connectingResults db city1 country1 city2 country2 with
  | none => rw [hcr] at hret; simp at hret
  | some res =>
      rw [hcr] at hret
      simp only [Option.map_some', Option.some.injEq, Prod.mk.injEq] at hret
      obtain ⟨hitems, htotal⟩ := hret
      refine ⟨res, rfl, hitems.symm, htotal.symm, ?_⟩
      set off : Int := (page - 1) * per_page with hoffdef
      have hoff : 0 ≤ off := by
        rw [hoffdef]
        exact mul_nonneg (by omega) (by omega)
      have hlen := pySlice_length_le res off (off + per_page) hoff (by omega)
      have harith : (off + per_page).toNat - off.toNat = per_page.toNat := by omega
      rw [harith] at hlen
      rw [← hitems]
      omega

/-- Claim C6: in every emitted itinerary, each of the three displayed airport
codes is the airport's IATA code when present, else its ICAO code when
present, else `"N/A"`, and each displayed airline code is the leg's airline
code, with `"Unknown"` when that value is null.  The `CodesWellFormed`
hypothesis is the spec's data-model invariant that a stored IATA/ICAO/airline
code has its fixed letter count (hence is not the empty string) whenever it
is present. -/
theorem c6_display_code_fallback
    (db : DB) (city1 country1 city2 country2 : String) (page per_page : Int)
    (items : List Itin) (total : Nat)
    (hwf : CodesWellFormed db)
    (hret : get_connecting_flights db city1 country1 city2 country2 page per_page =
      some (items, total))
    (it : Itin) (hit : it ∈ items) :
    ∃ first ∈ db.routes, ∃ second ∈ db.routes, ∃ fa va ta : Airport,
      lookupAirport db first.source_id = some fa ∧
      lookupAirport db first.dest_id = some va ∧
      lookupAirport db second.dest_id = some ta ∧
      it.from1 = displayCode fa ∧ it.via = displayCode va ∧ it.to1 = displayCode ta ∧
      it.airline1 = displayAirline first ∧ it.airline2 = displayAirline second := by
  rw [get_eq_pager] at hret
  cases hcr : connectingResults db city1 country1 city2 country2 with
  | none => rw [hcr] at hret; simp at hret
  | some res =>
      rw [hcr] at hret
      simp only [Option.map_some', Option.some.injEq, Prod.mk.injEq] at hret
      rw [← hret.1] at hit
      have hres : it ∈ res := pySlice_subset hit
      rcases connectingResults_mem hcr hres with ⟨f, hf, s, hs, hc, hmk⟩
      have hfr : f ∈ db.routes := (mem_firstLegs.mp hf).1
      have hsr : s ∈ db.routes := (mem_secondLegs.mp hs).1
      simp only [mkItinerary] at hmk
      cases e1 : lookupAirport db f.source_id with
      | none => rw [e1] at hmk; simp at hmk
      | some fa =>
      cases e2 : lookupAirport db f.dest_id with
      | none => rw [e1, e2] at hmk; simp at hmk
      | some va =>
      cases e3 : lookupAirport db s.dest_id with
      | none => rw [e1, e2, e3] at hmk; simp at hmk
      | some ta =>
      rw [e1, e2, e3] at hmk
      simp only [Option.some.injEq] at hmk
      subst hmk
      have hfa := lookupAirport_mem e1
      have hva := lookupAirport_mem e2
      have hta := lookupAirport_mem e3
      refine ⟨f, hfr, s, hsr, fa, va, ta, e1, e2, e3, ?_, ?_, ?_, ?_, ?_⟩
      · exact display_eq (hwf.1 fa hfa.1).1 (hwf.1 fa hfa.1).2
      · exact display_eq (hwf.1 va hva.1).1 (hwf.1 va hva.1).2
      · exact display_eq (hwf.1 ta hta.1).1 (hwf.1 ta hta.1).2
      · exact pyOr_eq_getD _ _ (hwf.2 f hfr)
      · exact pyOr_eq_getD _ _ (hwf.2 s hsr)

/-- Claim C7: under the data-model invariant that every route's source and
destination foreign keys resolve to an existing airport, the search never
raises: every airport lookup performed while building the display fields
succeeds, so `get_connecting_flights` returns `some` result on every input,
including empty strings and empty result sets. -/
theorem c7_never_raises (db : DB) (hri : RefIntact db)
    (city1 country1 city2 country2 : String) (page per_page : Int) :
    ∃ items total,
      get_connecting_flights db city1 country1 city2 country2 page per_page =
        some (items, total) := by
  rcases connectingResults_isSome db hri city1 country1 city2 country2 with ⟨res, hres⟩
  exact ⟨_, _, by rw [get_eq_pager, hres]; rfl⟩

/-- Claim C8: the page count computed by all calling handlers is
`(total + 24) / 25`, which is exactly ceiling division of the total by the
fixed constant 25: `pageCount total` is the least `k` with `total ≤ 25 * k`,
regardless of the `per_page` used in the query (`pageCount` takes no
`per_page` argument). -/
theorem c8_page_count_ceiling (total : Nat) :
    pageCount total = (total + 24) / 25 ∧
      ∀ k : Nat, (pageCount total ≤ k ↔ total ≤ 25 * k) := by
  refine ⟨rfl, fun k => ?_⟩
  simp only [pageCount]
  omega

/-- Claim C9: calling `get_connecting_flights` with `page = 0` yields an
empty page — the negative offset `-per_page` together with slice end `0`
always produces the empty in-memory slice, never a wrap-around portion —
while the returned total still equals the full number of join pairs. -/
theorem c9_page_zero_empty
    (db : DB) (city1 country1 city2 country2 : String) (per_page : Int)
    (items : List Itin) (total : Nat)
    (hpp : 1 ≤ per_page)
    (hret : get_connecting_flights db city1 country1 city2 country2 0 per_page =
      some (items, total)) :
    items = [] ∧ total = joinPairCount db city1 country1 city2 country2 := by
  rw [get_eq_pager] at hret
  cases hcr : connectingResults db city1 country1 city2 country2 with
  | none => rw [hcr] at hret; simp at hret
  | some res =>
      rw [hcr] at hret
      simp only [Option.map_some', Option.some.injEq, Prod.mk.injEq] at hret
      obtain ⟨hitems, htotal⟩ := hret
      have hz : ((0 : Int) - 1) * per_page + per_page = 0 := by ring
      rw [hz, pySlice_stop_zero] at hitems
      exact ⟨hitems.symm, htotal.symm.trans (connectingResults_length hcr)⟩

theorem flatMap_const_nil {α β : Type} (l : List α) :
    l.flatMap (fun _ => ([] : List β)) = [] := by
  induction l with
  | nil => rfl
  | cons a t ih => simp [ih]

/-- Claim C10: the materialized itinerary list is exactly the nested-loop
emission order: the concatenation, over first legs in fetch order, of that
first leg's matching itineraries in second-leg fetch order; hence which
itineraries land on a given page is fully determined by the two fetch
orders. -/
theorem c10_nested_loop_order
    (db : DB) (city1 country1 city2 country2 : String) (res : List Itin)
    (h : connectingResults db city1 country1 city2 country2 = some res) :
    res = (firstLegs db ((findAirports db city1 country1).map (fun a => a.id))).flatMap
      (fun f =>
        ((secondLegs db
            (((firstLegs db ((findAirports db city1 country1).map (fun a => a.id))).map
                (fun r => r.dest_id)).dedup)
            ((findAirports db city2 country2).map (fun a => a.id))).filter
          (fun s => f.dest_id == s.source_id)).filterMap
          (fun s => mkItinerary db f s)) := by
  simp only [connectingResults] at h
  by_cases h1 : (((findAirports db city1 country1).map (fun a => a.id)).isEmpty
      || ((findAirports db city2 country2).map (fun a => a.id)).isEmpty) = true
  · rw [if_pos h1] at h
    simp only [Option.some.injEq] at h
    subst h
    rcases Bool.or_eq_true_iff.mp h1 with hdep | harr
    · have hd : (findAirports db city1 country1).map (fun a => a.id) = [] :=
        List.isEmpty_iff.mp hdep
      rw [hd, firstLegs_nil]
      rfl
    · have ha : (findAirports db city2 country2).map (fun a => a.id) = [] :=
        List.isEmpty_iff.mp harr
      rw [ha, secondLegs_arr_nil]
      simp [flatMap_const_nil]
  · rw [if_neg h1] at h
    by_cases h2 : (firstLegs db
        ((findAirports db city1 country1).map (fun a => a.id))).isEmpty = true
    · rw [if_pos h2] at h
      simp only [Option.some.injEq] at h
      subst h
      have hfl : firstLegs db ((findAirports db city1 country1).map (fun a => a.id)) = [] :=
        List.isEmpty_iff.mp h2
      rw [hfl]
      rfl
    · rw [if_neg h2] at h
      exact buildResults_eq h

/-! ### Concrete instantiations of the hypotheses of each claim theorem -/

theorem c1_witness :
    ∃ first ∈ wDB.routes, ∃ second ∈ wDB.routes,
      first.dest_id = second.source_id ∧
      first.source_id ∈ (findAirports wDB "Berlin" "Germany").map (fun a => a.id) ∧
      second.dest_id ∈ (findAirports wDB "Singapore" "Singapore").map (fun a => a.id) ∧
      first.stops = 0 ∧ second.stops = 0 ∧
      mkItinerary wDB first second = some wItin :=
  c1_itinerary_provenance wDB "Berlin" "Germany" "Singapore" "Singapore" 1 25
    [wItin] 1 (by decide) (by decide) (by decide) wItin (by decide)

theorem c2_witness : (1 : Nat) = joinPairCount wDB "Berlin" "Germany" "Singapore" "Singapore" :=
  c2_total_join_pair_count wDB "Berlin" "Germany" "Singapore" "Singapore" 1 25
    [wItin] 1 (by decide)

theorem c3_witness :
    get_connecting_flights wDB "Berlin" "Germany" "Atlantis" "Nowhere" 2 7 =
      some ([], 0) :=
  c3_empty_short_circuit wDB "Berlin" "Germany" "Atlantis" "Nowhere" 2 7
    (Or.inr (Or.inl (by decide)))

theorem c4_witness :
    (1 : Int) ≤ 2 ∧
      (List.range ((([wItin, wItin, wItin] : List Itin).length + (2 : Int).toNat - 1) /
          (2 : Int).toNat)).flatMap
        (fun i => pySlice [wItin, wItin, wItin] ((i : Int) * 2) ((i : Int) * 2 + 2)) =
      [wItin, wItin, wItin] :=
  ⟨by decide, c4_pagination_exhaustive [wItin, wItin, wItin] 2 (by decide)⟩

theorem c5_witness :
    ∃ res, connectingResults wDB "Berlin" "Germany" "Singapore" "Singapore" = some res ∧
      [wItin] = pySlice res ((1 - 1) * 25) ((1 - 1) * 25 + 25) ∧
      1 = res.length ∧ (([wItin] : List Itin).length : Int) ≤ 25 :=
  c5_page_slice_and_total wDB "Berlin" "Germany" "Singapore" "Singapore" 1 25
    [wItin] 1 (by decide) (by decide) (by decide)

theorem c6_witness :
    ∃ first ∈ wDB.routes, ∃ second ∈ wDB.routes, ∃ fa va ta : Airport,
      lookupAirport wDB first.source_id = some fa ∧
      lookupAirport wDB first.dest_id = some va ∧
      lookupAirport wDB second.dest_id = some ta ∧
      wItin.from1 = displayCode fa ∧ wItin.via = displayCode va ∧
      wItin.to1 = displayCode ta ∧
      wItin.airline1 = displayAirline first ∧ wItin.airline2 = displayAirline second :=
  c6_display_code_fallback wDB "Berlin" "Germany" "Singapore" "Singapore" 1 25
    [wItin] 1 (by unfold CodesWellFormed; decide) (by decide) wItin (by decide)

theorem c7_witness :
    ∃ items total,
      get_connecting_flights wDB "Berlin" "Germany" "Singapore" "Singapore" 3 10 =
        some (items, total) :=
  c7_never_raises wDB (by unfold RefIntact; decide) "Berlin" "Germany" "Singapore" "Singapore" 3 10

theorem c9_witness :
    ([] : List Itin) = [] ∧
      (1 : Nat) = joinPairCount wDB "Berlin" "Germany" "Singapore" "Singapore" :=
  c9_page_zero_empty wDB "Berlin" "Germany" "Singapore" "Singapore" 25 [] 1
    (by decide) (by decide)

theorem c10_witness :
    [wItin] = (firstLegs wDB ((findAirports wDB "Berlin" "Germany").map (fun a => a.id))).flatMap
      (fun f =>
        ((secondLegs wDB
            (((firstLegs wDB ((findAirports wDB "Berlin" "Germany").map (fun a => a.id))).map
                (fun r => r.dest_id)).dedup)
            ((findAirports wDB "Singapore" "Singapore").map (fun a => a.id))).filter
          (fun s => f.dest_id == s.source_id)).filterMap
          (fun s => mkItinerary wDB f s)) :=
  c10_nested_loop_order wDB "Berlin" "Germany" "Singapore" "Singapore" [wItin] (by decide)
